import Mathlib

/-!
Verification of the interception engine of `spenczar/mitmproxy`
(files `proxy/proxy.go` and `proxy/middle.go`), via a shallow embedding.

Bodies and wire data are lists of byte values (`List Nat`); writes of Go
string literals are modelled at codepoint granularity through `strBytes`.
Observable behaviour (addon hook invocations, lifecycle events, upstream
requests, replies written to the client) is recorded as a trace of `Event`s.
A hook that panics inside an addon is modelled by the hook function
returning `none`; the engine-side `recover` corresponds to the
`.recovered` result.  Logging calls are not modelled; the `.recovered`
result stands for "the deferred recover ran and logged a warning".
-/

namespace Proxy

/-- Codepoint values of a string; byte-level client writes of Go string
literals are modelled at this granularity. -/
def strBytes (s : String) : List Nat :=
  s.data.map Char.toNat

/-- Header multimap as in net/http: key to list of values. -/
abbrev Header := List (String × List String)

/-- The parts of `url.URL` the handler reads.  `IsAbs()` is `Scheme ≠ ""`. -/
structure URL where
  Scheme : String
  Host : String
  Path : String
  deriving DecidableEq, Repr

/-- flow.Request: method, URL, header, optional in-memory body. -/
structure Request where
  Method : String
  URL : URL
  Header : Header
  Body : Option (List Nat)
  deriving DecidableEq, Repr

/-- flow.Response: status code, header, optional in-memory body
(`nil` slice in Go is `none`). -/
structure Response where
  StatusCode : Nat
  Header : Header
  Body : Option (List Nat)
  deriving DecidableEq, Repr

/-- flow.Flow: one request/response exchange. -/
structure Flow where
  Request : Request
  Response : Option Response
  Stream : Bool
  deriving DecidableEq, Repr

/-- The options `ServeHTTP` reads (proxy.Options). -/
structure Options where
  StreamLargeBodies : Nat
  SslInsecure : Bool
  deriving DecidableEq, Repr

/-- addon.Addon: the four flow hooks.  A hook returning `none` models a
panic inside that addon; `some f1` is the (possibly mutated) flow on
normal return. -/
structure Addon where
  Requestheaders : Flow → Option Flow
  Request : Flow → Option Flow
  Responseheaders : Flow → Option Flow
  Response : Flow → Option Flow

/-- Observable events of one exchange / one connection, in order.
Lifecycle events stand for the whole `for _, addon := range`-loop at that
hook point; the indexed events record which addon (by registration index)
was invoked at a flow hook. -/
inductive Event where
  | ClientConnected
  | ServerConnected
  | ServerDisconnected
  | ClientDisconnected
  | Requestheaders (i : Nat)
  | Request (i : Nat)
  | Responseheaders (i : Nat)
  | Response (i : Nat)
  | UpstreamRequest (body : List Nat)
  | ReplyClient (status : Nat) (header : Header) (body : List Nat)
  deriving DecidableEq, Repr

/-- Outcome of one of the short-circuitable addon loops. -/
inductive LoopOutcome where
  | panicked
  | shortCircuit (f : Flow)
  | done (f : Flow)
  deriving DecidableEq, Repr

/-- proxy.go lines 232-239: the Requestheaders loop.  Fires
`addon.Requestheaders(f)` in registration order; after each addon, if
`f.Response != nil` the engine replies and returns (short circuit).
`i` is the registration index of the first addon in the list. -/
def runRequestheaders : List Addon → Nat → Flow → List Event × LoopOutcome
  | [], _, f => ([], .done f)
  | a :: rest, i, f =>
    match a.Requestheaders f with
    | none => ([.Requestheaders i], .panicked)
    | some f1 =>
      match f1.Response with
      | some _ => ([.Requestheaders i], .shortCircuit f1)
      | none =>
        let out := runRequestheaders rest (i + 1) f1
        (.Requestheaders i :: out.1, out.2)

/-- proxy.go lines 258-265: the Request loop, same short-circuit shape as
the Requestheaders loop. -/
def runRequest : List Addon → Nat → Flow → List Event × LoopOutcome
  | [], _, f => ([], .done f)
  | a :: rest, i, f =>
    match a.Request f with
    | none => ([.Request i], .panicked)
    | some f1 =>
      match f1.Response with
      | some _ => ([.Request i], .shortCircuit f1)
      | none =>
        let out := runRequest rest (i + 1) f1
        (.Request i :: out.1, out.2)

/-- proxy.go lines 312-319: the Responseheaders loop.  After each addon the
engine reads `f.Response.Body`; if an addon has set `f.Response` to nil,
that read is a nil dereference, i.e. a panic caught by the engine's
recover, hence `.panicked`.  If `f.Response.Body != nil` the engine
replies and returns (short circuit). -/
def runResponseheaders : List Addon → Nat → Flow → List Event × LoopOutcome
  | [], _, f => ([], .done f)
  | a :: rest, i, f =>
    match a.Responseheaders f with
    | none => ([.Responseheaders i], .panicked)
    | some f1 =>
      match f1.Response with
      | none => ([.Responseheaders i], .panicked)
      | some r =>
        match r.Body with
        | some _ => ([.Responseheaders i], .shortCircuit f1)
        | none =>
          let out := runResponseheaders rest (i + 1) f1
          (.Responseheaders i :: out.1, out.2)

/-- proxy.go lines 337-340: the Response loop; no short circuit, only
normal completion (`some` final flow) or a contained panic (`none`). -/
def runResponse : List Addon → Nat → Flow → List Event × Option Flow
  | [], _, f => ([], some f)
  | a :: rest, i, f =>
    match a.Response f with
    | none => ([.Response i], none)
    | some f1 =>
      let out := runResponse rest (i + 1) f1
      (.Response i :: out.1, out.2)

/-- Modelled from the spec: `ReaderToBuffer` lives in helper.go, which is
not under `src/`.  Spec §4.E: reads up to `limit` bytes; if EOF is reached
within the limit it returns `(buf, nil)` with the full body in memory; if
`limit` bytes are read without EOF it returns `(nil, concat(buf, reader))`,
a residual reader re-emitting the already-read prefix followed by the
remainder.  Spec §6 fixes the threshold: streaming is forced at body size
at or above `limit`.  The first component is the buffer (`none` when the
limit was reached), the second the residual reader's total content
(`none` on the buffered path, where Go returns a nil reader). -/
def ReaderToBuffer (body : List Nat) (limit : Nat) :
    Option (List Nat) × Option (List Nat) :=
  if body.length < limit then (some body, none)
  else (none, some body)

/-- The bytes `reply` (proxy.go lines 197-218) writes after the status
line: the `body` reader argument when non-nil, else `response.Body` when
non-nil and non-empty, else nothing. -/
def replyBody (r : Response) (body : Option (List Nat)) : List Nat :=
  match body with
  | some b => b
  | none =>
    match r.Body with
    | some b => if b.length > 0 then b else []
    | none => []

/-- How the engine computes one exchange's outcome. `.normal` is an
ordinary return from `ServeHTTP`; `.recovered` means an addon (or a nil
dereference caused by an addon) panicked and the deferred recover at
proxy.go lines 221-225 caught it and logged a warning. -/
inductive ServeResult where
  | normal
  | recovered
  deriving DecidableEq, Repr

/-- Result of one modelled `ServeHTTP` call: the event trace, how the call
ended, and the flow value at exit (`none` when the exchange was aborted by
a recovered panic, where the flow state is unspecified). -/
structure ServeOutcome where
  events : List Event
  result : ServeResult
  finalFlow : Option Flow
  deriving DecidableEq, Repr

/-- A call `reply(f.Response, body)` followed by return.  In Go,
`reply(nil, body)` dereferences `response.Header` on a nil response and
panics; the deferred recover catches it, hence `.recovered` when
`f.Response` is nil. -/
def replyOutcome (evs : List Event) (f : Flow) (body : Option (List Nat)) :
    ServeOutcome :=
  match f.Response with
  | none => { events := evs, result := .recovered, finalFlow := none }
  | some r =>
    { events := evs ++ [.ReplyClient r.StatusCode r.Header (replyBody r body)]
      result := .normal
      finalFlow := some f }

/-- Result of `f.ConnContext.Server.Client.Do(proxyReq)`:
either the upstream dial fails, or the upstream answers with status,
header and a body stream. -/
inductive UpstreamResult where
  | DialFail
  | Ok (StatusCode : Nat) (Header : Header) (body : List Nat)
  deriving DecidableEq, Repr

/-- proxy.go lines 283-345, from `InitHttpServer` on: issue the upstream
request and run the response half of the exchange.  On a successful dial
the `onConnected` callback installed via `InitHttpServer` fires the
ServerConnected loop (flow package, spec §4.B: exactly once, on the first
successful upstream dial; this models the first exchange of a
connection), then the request with body `reqBody` goes upstream.  On dial
failure the engine writes a bare 502 and returns.  `serveResponsePhase`
below models lines 307-345. -/
def serveResponsePhase (addons : List Addon) (opts : Options) (f1 : Flow)
    (rbody : List Nat) : ServeOutcome :=
  match runResponseheaders addons 0 f1 with
  | (evs, .panicked) => { events := evs, result := .recovered, finalFlow := none }
  | (evs, .shortCircuit f2) =>
    -- reply(f.Response, nil); the upstream body is never read
    replyOutcome evs f2 none
  | (evs, .done f2) =>
    if f2.Stream then
      -- resBody is still the raw upstream body reader
      replyOutcome evs f2 (some rbody)
    else
      match ReaderToBuffer rbody opts.StreamLargeBodies with
      | (none, residual) =>
        -- limit reached: promote to stream, skip the Response loop
        replyOutcome evs { f2 with Stream := true } residual
      | (some resBuf, residual) =>
        -- f.Response.Body = resBuf (nil dereference if an addon erased
        -- f.Response; caught by the recover)
        match f2.Response with
        | none => { events := evs, result := .recovered, finalFlow := none }
        | some r =>
          let f3 := { f2 with Response := some { r with Body := some resBuf } }
          match runResponse addons 0 f3 with
          | (evs2, none) =>
            { events := evs ++ evs2, result := .recovered, finalFlow := none }
          | (evs2, some f4) =>
            -- residual is none here: reply(f.Response, nil)
            replyOutcome (evs ++ evs2) f4 residual

/-- proxy.go lines 283-310: upstream dial and request.  See
`serveResponsePhase` for the response half. -/
def serveUpstreamPhase (addons : List Addon) (opts : Options) (f : Flow)
    (reqBody : List Nat) (upstream : UpstreamResult) : ServeOutcome :=
  match upstream with
  | .DialFail =>
    -- res.WriteHeader(502), empty body, no headers copied
    { events := [.ReplyClient 502 [] []], result := .normal, finalFlow := some f }
  | .Ok st hd rbody =>
    let f1 := { f with Response := some { StatusCode := st, Header := hd, Body := none } }
    let out := serveResponsePhase addons opts f1 rbody
    { out with events := .ServerConnected :: .UpstreamRequest reqBody :: out.events }

/-- proxy.go lines 241-268: read the request body.  If the flow is already
in stream mode the raw body reader goes upstream unchanged; otherwise the
body is buffered up to `StreamLargeBodies`: reaching the limit promotes
the flow to stream mode and forwards the residual reader, while a fully
buffered body is stored in `f.Request.Body` and the Request loop runs,
after which `bytes.NewReader(f.Request.Body)` goes upstream. -/
def serveRequestPhase (addons : List Addon) (opts : Options) (f1 : Flow)
    (wireBody : List Nat) (upstream : UpstreamResult) : ServeOutcome :=
  if f1.Stream then
    serveUpstreamPhase addons opts f1 wireBody upstream
  else
    match ReaderToBuffer wireBody opts.StreamLargeBodies with
    | (none, residual) =>
      serveUpstreamPhase addons opts { f1 with Stream := true }
        (residual.getD []) upstream
    | (some reqBuf, _) =>
      let f2 := { f1 with Request := { f1.Request with Body := some reqBuf } }
      match runRequest addons 0 f2 with
      | (evs, .panicked) =>
        { events := evs, result := .recovered, finalFlow := none }
      | (evs, .shortCircuit f3) => replyOutcome evs f3 none
      | (evs, .done f3) =>
        let out := serveUpstreamPhase addons opts f3 (f3.Request.Body.getD []) upstream
        { out with events := evs ++ out.events }

/-- The fixed body of the 400 answer to a direct (non-absolute) request
(proxy.go line 190). -/
def directRequestErrText : String := "此为代理服务器，不能直接发起请求"

/-- proxy.go lines 174-345: `Proxy.ServeHTTP` for a non-CONNECT request
(`req.Method == "CONNECT"` is dispatched to `handleConnect`, modelled
separately).  `wireBody` is the client's request body stream; `upstream`
is the behaviour of the origin server. -/
def ServeHTTP (addons : List Addon) (opts : Options) (req : Request)
    (wireBody : List Nat) (upstream : UpstreamResult) : ServeOutcome :=
  if req.URL.Scheme = "" ∨ req.URL.Host = "" then
    { events := [.ReplyClient 400 [] (strBytes directRequestErrText)]
      result := .normal
      finalFlow := none }
  else
    -- f := flow.NewFlow(); f.Request = flow.NewRequest(req)
    match runRequestheaders addons 0
        { Request := req, Response := none, Stream := false } with
    | (evs, .panicked) =>
      { events := evs, result := .recovered, finalFlow := none }
    | (evs, .shortCircuit f1) => replyOutcome evs f1 none
    | (evs, .done f1) =>
      let out := serveRequestPhase addons opts f1 wireBody upstream
      { out with events := evs ++ out.events }

/-- State shared between `proxyConn.Close` and `serverConn.Close` for one
`ConnContext`.  `serverPresent` is the guard
`connCtx.Server != nil && connCtx.Server.Conn != nil`; `rawClientErr` /
`rawServerErr` are the values the underlying `net.Conn.Close()` returns
(0 standing for a nil error); `clientCloseErr` / `serverCloseErr` cache
the first close's result, as the `closeErr` fields do. -/
structure ConnState where
  clientClosed : Bool
  serverClosed : Bool
  serverPresent : Bool
  rawClientErr : Nat
  rawServerErr : Nat
  clientCloseErr : Nat
  serverCloseErr : Nat
  deriving DecidableEq, Repr

/-- Which leg's `Close` is being called. -/
inductive Leg where
  | client
  | server
  deriving DecidableEq, Repr

/-- proxy.go lines 58-76 (`proxyConn.Close`) and 86-102
(`serverConn.Close`).  The two methods call each other (the client leg
closes `connCtx.Server.Conn`, whose `Close` fires ServerDisconnected and
closes `connCtx.Client.Conn` back); the `closed` flags bound the mutual
recursion, rendered here by a fuel argument — fuel 3 already suffices from
either entry point, see `closeConn_fuel_enough`.  Returns the state after
the call, the hook events fired, and the error value the call returns. -/
def closeConn : Nat → Leg → ConnState → ConnState × List Event × Nat
  | 0, _, s => (s, [], 0)
  | fuel + 1, .client, s =>
    if s.clientClosed then (s, [], s.clientCloseErr)
    else
      let s1 := { s with clientClosed := true, clientCloseErr := s.rawClientErr }
      -- fire ClientDisconnected for every addon, then close the server leg
      if s1.serverPresent then
        let inner := closeConn fuel .server s1
        (inner.1, .ClientDisconnected :: inner.2.1, s1.clientCloseErr)
      else
        (s1, [.ClientDisconnected], s1.clientCloseErr)
  | fuel + 1, .server, s =>
    if s.serverClosed then (s, [], s.serverCloseErr)
    else
      let s1 := { s with serverClosed := true, serverCloseErr := s.rawServerErr }
      -- fire ServerDisconnected for every addon, then close the client leg
      let inner := closeConn fuel .client s1
      (inner.1, .ServerDisconnected :: inner.2.1, s1.serverCloseErr)

/-- One end of the in-memory pipe as the interceptor sees it: the bytes
the client has sent into the tunnel so far (the content of the buffered
reader), or fewer than the peeked amount when the stream errors/closes
early. -/
structure PipeSource where
  bytes : List Nat
  deriving DecidableEq, Repr

/-- middle.go lines 59-61: `pipeConn.Peek(n)` delegates to
`bufio.Reader.Peek`, which returns the next `n` bytes without consuming
them, or an error when fewer than `n` bytes are available.  The source is
unchanged (peeking never consumes). -/
def pipeConnPeek (p : PipeSource) (n : Nat) : Except Unit (List Nat) :=
  if n ≤ p.bytes.length then .ok (p.bytes.take n) else .error ()

/-- middle.go line 154: the TLS-record test
`buf[0] == 0x16 && buf[1] == 0x03 && buf[2] <= 0x03` on the peeked bytes. -/
def isTlsRecordMagic (buf : List Nat) : Bool :=
  buf[0]! == 0x16 && buf[1]! == 0x03 && buf[2]! ≤ 0x03

/-- What `Middle.intercept` does with the pipe's server end.  The byte
lists carried by `handToListener` / `websocket` are the pending content of
the handed-off connection: peeking consumed nothing, so they still start
with the classified bytes. -/
inductive InterceptAction where
  | closePipe
  | setClientTls
  | initHttpsServer (insecure : Bool)
  | handToListener (pending : List Nat)
  | websocket (pending : List Nat)
  deriving DecidableEq, Repr

/-- middle.go lines 143-177: `Middle.intercept`.  Peek 3 bytes; on error
close the pipe and return; on the TLS record magic set
`connContext.Client.Tls`, call `InitHttpsServer` with
`m.Proxy.Opts.SslInsecure` (`insecure` here) and hand the pipe's server
end to the mock listener; otherwise hand it to the WebSocket path. -/
def intercept (p : PipeSource) (insecure : Bool) : List InterceptAction :=
  match pipeConnPeek p 3 with
  | .error _ => [.closePipe]
  | .ok buf =>
    if isTlsRecordMagic buf then
      [.setClientTls, .initHttpsServer insecure, .handToListener p.bytes]
    else
      [.websocket p.bytes]

/-- The arguments of `Middle.Dial` the model keeps: the CONNECT request's
host and remote address, which `newPipeConn` copies onto the pipe's
server end. -/
structure DialReq where
  host : String
  remoteAddr : String
  deriving DecidableEq, Repr

/-- The client end of the pipe pair `newPipes` creates for a CONNECT
request. -/
structure PipeClientEnd where
  forHost : String
  deriving DecidableEq, Repr

/-- middle.go lines 118-122: `Middle.Dial` builds the pipe pair, spawns
`m.intercept(pipeServerConn)` on its own goroutine and immediately
returns the client end with a nil error; the return value does not
depend on classification or on any upstream connection. -/
def MiddleDial (req : DialReq) : Except String PipeClientEnd :=
  Except.ok { forHost := req.host }

/-- Observable actions of `Proxy.handleConnect` on its two connections. -/
inductive ConnectAction where
  | write502
  | writeClient (bytes : List Nat)
  | transferred (toClient : List Nat) (toPipe : List Nat)
  | closeClientSock
  | closePipeEnd
  deriving DecidableEq, Repr

/-- The literal success line of proxy.go line 374. -/
def connectionEstablished : String := "HTTP/1.1 200 Connection Established\r\n\r\n"

/-- Modelled from the spec: `transfer` lives in helper.go, which is not
under `src/`.  Spec §4.F: bidirectionally copy bytes between the hijacked
client socket and the pipe end until either side closes or errors; with
the two sides' streams finite, each side receives the other's bytes. -/
def transfer (pipeBytes clientBytes : List Nat) : ConnectAction :=
  .transferred pipeBytes clientBytes

/-- proxy.go lines 347-381: `Proxy.handleConnect`.  `dialRes` is the
result of `proxy.Interceptor.Dial(req)`; `hijackOk` whether
`res.(http.Hijacker).Hijack()` succeeds; `writeOk` whether the success
line reaches the client; `pipeBytes` / `clientBytes` the bytes each side
of the tunnel will produce.  The deferred closes run in reverse
registration order: `cconn.Close()` then `conn.Close()`. -/
def handleConnect (dialRes : Except String PipeClientEnd)
    (hijackOk : Bool) (writeOk : Bool)
    (pipeBytes clientBytes : List Nat) : List ConnectAction :=
  match dialRes with
  | .error _ => [.write502]
  | .ok _ =>
    if hijackOk then
      if writeOk then
        [.writeClient (strBytes connectionEstablished),
         transfer pipeBytes clientBytes,
         .closeClientSock, .closePipeEnd]
      else
        -- the write was attempted but failed; return runs the deferred closes
        [.writeClient (strBytes connectionEstablished),
         .closeClientSock, .closePipeEnd]
    else
      -- hijack failed: WriteHeader(502), then the deferred conn.Close()
      [.write502, .closePipeEnd]

/-! Helper lemmas about the addon-hook loops. -/

/-- Every event the Requestheaders loop emits is a `Requestheaders` event. -/
lemma runRequestheaders_mem (addons : List Addon) (i : Nat) (f : Flow) :
    ∀ e ∈ (runRequestheaders addons i f).1, ∃ j, e = Event.Requestheaders j := by
  induction addons generalizing i f with
  | nil => simp [runRequestheaders]
  | cons a rest ih =>
    intro e he
    rw [runRequestheaders] at he
    cases h : a.Requestheaders f with
    | none =>
      simp [h] at he
      exact ⟨i, he⟩
    | some f1 =>
      cases h2 : f1.Response with
      | some r =>
        simp [h, h2] at he
        exact ⟨i, he⟩
      | none =>
        simp [h, h2] at he
        rcases he with rfl | he
        · exact ⟨i, rfl⟩
        · exact ih (i + 1) f1 e he

/-- Every event the Request loop emits is a `Request` event. -/
lemma runRequest_mem (addons : List Addon) (i : Nat) (f : Flow) :
    ∀ e ∈ (runRequest addons i f).1, ∃ j, e = Event.Request j := by
  induction addons generalizing i f with
  | nil => simp [runRequest]
  | cons a rest ih =>
    intro e he
    rw [runRequest] at he
    cases h : a.Request f with
    | none =>
      simp [h] at he
      exact ⟨i, he⟩
    | some f1 =>
      cases h2 : f1.Response with
      | some r =>
        simp [h, h2] at he
        exact ⟨i, he⟩
      | none =>
        simp [h, h2] at he
        rcases he with rfl | he
        · exact ⟨i, rfl⟩
        · exact ih (i + 1) f1 e he

/-- Every event the Responseheaders loop emits is a `Responseheaders`
event. -/
lemma runResponseheaders_mem (addons : List Addon) (i : Nat) (f : Flow) :
    ∀ e ∈ (runResponseheaders addons i f).1, ∃ j, e = Event.Responseheaders j := by
  induction addons generalizing i f with
  | nil => simp [runResponseheaders]
  | cons a rest ih =>
    intro e he
    rw [runResponseheaders] at he
    cases h : a.Responseheaders f with
    | none =>
      simp [h] at he
      exact ⟨i, he⟩
    | some f1 =>
      cases h2 : f1.Response with
      | none =>
        simp [h, h2] at he
        exact ⟨i, he⟩
      | some r =>
        cases h3 : r.Body with
        | some b =>
          simp [h, h2, h3] at he
          exact ⟨i, he⟩
        | none =>
          simp [h, h2, h3] at he
          rcases he with rfl | he
          · exact ⟨i, rfl⟩
          · exact ih (i + 1) f1 e he

/-- Every event the Response loop emits is a `Response` event. -/
lemma runResponse_mem (addons : List Addon) (i : Nat) (f : Flow) :
    ∀ e ∈ (runResponse addons i f).1, ∃ j, e = Event.Response j := by
  induction addons generalizing i f with
  | nil => simp [runResponse]
  | cons a rest ih =>
    intro e he
    rw [runResponse] at he
    cases h : a.Response f with
    | none =>
      simp [h] at he
      exact ⟨i, he⟩
    | some f1 =>
      simp [h] at he
      rcases he with rfl | he
      · exact ⟨i, rfl⟩
      · exact ih (i + 1) f1 e he

/-- The Requestheaders loop short-circuits only with `f.Response` set. -/
lemma runRequestheaders_shortCircuit_response (addons : List Addon) (i : Nat)
    (f : Flow) (evs : List Event) (f' : Flow)
    (h : runRequestheaders addons i f = (evs, .shortCircuit f')) :
    ∃ r, f'.Response = some r := by
  induction addons generalizing i f evs with
  | nil => simp [runRequestheaders] at h
  | cons a rest ih =>
    rw [runRequestheaders] at h
    cases ha : a.Requestheaders f with
    | none => simp [ha] at h
    | some f1 =>
      cases h2 : f1.Response with
      | some r =>
        simp [ha, h2] at h
        exact ⟨r, h.2 ▸ h2⟩
      | none =>
        simp [ha, h2] at h
        exact ih (i + 1) f1 _ (by rw [← h.2])

/-- The Request loop short-circuits only with `f.Response` set. -/
lemma runRequest_shortCircuit_response (addons : List Addon) (i : Nat)
    (f : Flow) (evs : List Event) (f' : Flow)
    (h : runRequest addons i f = (evs, .shortCircuit f')) :
    ∃ r, f'.Response = some r := by
  induction addons generalizing i f evs with
  | nil => simp [runRequest] at h
  | cons a rest ih =>
    rw [runRequest] at h
    cases ha : a.Request f with
    | none => simp [ha] at h
    | some f1 =>
      cases h2 : f1.Response with
      | some r =>
        simp [ha, h2] at h
        exact ⟨r, h.2 ▸ h2⟩
      | none =>
        simp [ha, h2] at h
        exact ih (i + 1) f1 _ (by rw [← h.2])

/-- The Responseheaders loop short-circuits only with a response carrying
a non-nil body. -/
lemma runResponseheaders_shortCircuit_body (addons : List Addon) (i : Nat)
    (f : Flow) (evs : List Event) (f' : Flow)
    (h : runResponseheaders addons i f = (evs, .shortCircuit f')) :
    ∃ r b, f'.Response = some r ∧ r.Body = some b := by
  induction addons generalizing i f evs with
  | nil => simp [runResponseheaders] at h
  | cons a rest ih =>
    rw [runResponseheaders] at h
    cases ha : a.Responseheaders f with
    | none => simp [ha] at h
    | some f1 =>
      cases h2 : f1.Response with
      | none => simp [ha, h2] at h
      | some r =>
        cases h3 : r.Body with
        | some b =>
          simp [ha, h2, h3] at h
          exact ⟨r, b, h.2 ▸ h2, h3⟩
        | none =>
          simp [ha, h2, h3] at h
          exact ih (i + 1) f1 _ (by rw [← h.2])

/-- The events of the Responseheaders loop are `Responseheaders i`,
`Responseheaders (i+1)`, … in that order: addons fire in registration
order. -/
lemma runResponseheaders_events_range (addons : List Addon) (i : Nat) (f : Flow) :
    (runResponseheaders addons i f).1 =
      (List.range' i (runResponseheaders addons i f).1.length).map
        Event.Responseheaders := by
  induction addons generalizing i f with
  | nil => simp [runResponseheaders]
  | cons a rest ih =>
    rw [runResponseheaders]
    cases h : a.Responseheaders f with
    | none => simp [List.range']
    | some f1 =>
      cases h2 : f1.Response with
      | none => simp [h2, List.range']
      | some r =>
        cases h3 : r.Body with
        | some b => simp [h2, h3, List.range']
        | none =>
          simp only [h2, h3, List.length_cons, List.range'_succ, List.map_cons,
            List.cons.injEq, true_and]
          exact ih (i + 1) f1

/-- When a `b` is stored in `r.Body`, `reply(r, nil)` writes exactly `b`. -/
lemma replyBody_none_of_body (r : Response) (b : List Nat) (h : r.Body = some b) :
    replyBody r none = b := by
  cases b with
  | nil => simp [replyBody, h]
  | cons x xs => simp [replyBody, h]

/-- Closing an already-closed client leg is a no-op returning the cached
error. -/
lemma closeConn_client_closed (fuel : Nat) (s : ConnState)
    (h : s.clientClosed = true) :
    closeConn (fuel + 1) .client s = (s, [], s.clientCloseErr) := by
  simp [closeConn, h]

/-- Closing an already-closed server leg is a no-op returning the cached
error. -/
lemma closeConn_server_closed (fuel : Nat) (s : ConnState)
    (h : s.serverClosed = true) :
    closeConn (fuel + 1) .server s = (s, [], s.serverCloseErr) := by
  simp [closeConn, h]

/-- Evaluation of `proxyConn.Close` on a fully open connection with a
server leg: both legs end closed, the trace is ClientDisconnected then
ServerDisconnected, and the underlying client close error is returned and
cached. -/
lemma closeConn_client_eval (s : ConnState)
    (h1 : s.clientClosed = false) (h2 : s.serverClosed = false)
    (h3 : s.serverPresent = true) :
    closeConn 4 .client s =
      ({ s with clientClosed := true, serverClosed := true,
                clientCloseErr := s.rawClientErr,
                serverCloseErr := s.rawServerErr },
       [.ClientDisconnected, .ServerDisconnected], s.rawClientErr) := by
  simp [closeConn, h1, h2, h3]

/-- Evaluation of `proxyConn.Close` on a fully open connection without a
server leg: only the client leg closes. -/
lemma closeConn_client_eval_noserver (s : ConnState)
    (h1 : s.clientClosed = false) (h3 : s.serverPresent = false) :
    closeConn 4 .client s =
      ({ s with clientClosed := true, clientCloseErr := s.rawClientErr },
       [.ClientDisconnected], s.rawClientErr) := by
  simp [closeConn, h1, h3]

/-- Evaluation of `serverConn.Close` on a fully open connection: both legs
end closed, the trace is ServerDisconnected then ClientDisconnected, and
the underlying server close error is returned and cached. -/
lemma closeConn_server_eval (s : ConnState)
    (h1 : s.clientClosed = false) (h2 : s.serverClosed = false) :
    closeConn 4 .server s =
      ({ s with clientClosed := true, serverClosed := true,
                clientCloseErr := s.rawClientErr,
                serverCloseErr := s.rawServerErr },
       [.ServerDisconnected, .ClientDisconnected], s.rawServerErr) := by
  cases h3 : s.serverPresent <;> simp [closeConn, h1, h2, h3]

/-- Any event of the response phase is a Responseheaders, Response or
ReplyClient event. -/
lemma serveResponsePhase_mem (addons : List Addon) (opts : Options)
    (f1 : Flow) (rbody : List Nat) :
    ∀ e ∈ (serveResponsePhase addons opts f1 rbody).events,
      (∃ i, e = Event.Responseheaders i) ∨ (∃ i, e = Event.Response i) ∨
      (∃ st hd b, e = Event.ReplyClient st hd b) := by
  intro e he
  unfold serveResponsePhase at he
  have hm := runResponseheaders_mem addons 0 f1
  cases hrun : runResponseheaders addons 0 f1 with
  | mk evs out =>
    rw [hrun] at he hm
    cases out with
    | panicked =>
      simp only at he
      exact Or.inl (hm e he)
    | shortCircuit f2 =>
      simp only [replyOutcome] at he
      cases hr : f2.Response with
      | none => rw [hr] at he; exact Or.inl (hm e he)
      | some r =>
        rw [hr] at he
        simp only [List.mem_append, List.mem_singleton] at he
        rcases he with he | rfl
        · exact Or.inl (hm e he)
        · exact Or.inr (Or.inr ⟨_, _, _, rfl⟩)
    | done f2 =>
      by_cases hst : f2.Stream
      · simp only [hst, if_true, replyOutcome] at he
        cases hr : f2.Response with
        | none => rw [hr] at he; exact Or.inl (hm e he)
        | some r =>
          rw [hr] at he
          simp only [List.mem_append, List.mem_singleton] at he
          rcases he with he | rfl
          · exact Or.inl (hm e he)
          · exact Or.inr (Or.inr ⟨_, _, _, rfl⟩)
      · simp only [if_neg hst] at he
        cases hbuf : ReaderToBuffer rbody opts.StreamLargeBodies with
        | mk buf residual =>
          rw [hbuf] at he
          cases buf with
          | none =>
            simp only [replyOutcome] at he
            cases hr : ({ f2 with Stream := true } : Flow).Response with
            | none => rw [hr] at he; exact Or.inl (hm e he)
            | some r =>
              rw [hr] at he
              simp only [List.mem_append, List.mem_singleton] at he
              rcases he with he | rfl
              · exact Or.inl (hm e he)
              · exact Or.inr (Or.inr ⟨_, _, _, rfl⟩)
          | some resBuf =>
            cases hr : f2.Response with
            | none => rw [hr] at he; exact Or.inl (hm e he)
            | some r =>
              rw [hr] at he
              simp only at he
              have hm2 := runResponse_mem addons 0
                { f2 with Response := some { r with Body := some resBuf } }
              cases hrun2 : runResponse addons 0
                  { f2 with Response := some { r with Body := some resBuf } } with
              | mk evs2 out2 =>
                rw [hrun2] at he hm2
                cases out2 with
                | none =>
                  simp only [List.mem_append] at he
                  rcases he with he | he
                  · exact Or.inl (hm e he)
                  · exact Or.inr (Or.inl (hm2 e he))
                | some f4 =>
                  simp only [replyOutcome] at he
                  cases hr4 : f4.Response with
                  | none =>
                    rw [hr4] at he
                    simp only [List.mem_append] at he
                    rcases he with he | he
                    · exact Or.inl (hm e he)
                    · exact Or.inr (Or.inl (hm2 e he))
                  | some r4 =>
                    rw [hr4] at he
                    simp only [List.mem_append, List.mem_singleton] at he
                    rcases he with (he | he) | rfl
                    · exact Or.inl (hm e he)
                    · exact Or.inr (Or.inl (hm2 e he))
                    · exact Or.inr (Or.inr ⟨_, _, _, rfl⟩)

/-- The upstream-and-response part of the exchange never invokes a Request
hook. -/
lemma serveUpstreamPhase_no_request (addons : List Addon) (opts : Options)
    (f : Flow) (reqBody : List Nat) (up : UpstreamResult) (i : Nat) :
    Event.Request i ∉ (serveUpstreamPhase addons opts f reqBody up).events := by
  intro he
  cases up with
  | DialFail => simp [serveUpstreamPhase] at he
  | Ok st hd rbody =>
    simp only [serveUpstreamPhase, List.mem_cons] at he
    rcases he with he | he | he
    · exact Event.noConfusion he
    · exact Event.noConfusion he
    · rcases serveResponsePhase_mem addons opts _ rbody _ he with ⟨j, hj⟩ | ⟨j, hj⟩ |
        ⟨st', hd', b', hj⟩ <;> exact Event.noConfusion hj

/-! Concrete addons, requests and connection states used as witnesses. -/

/-- An addon whose hooks all return the flow unchanged. -/
def idAddon : Addon :=
  { Requestheaders := fun f => some f, Request := fun f => some f,
    Responseheaders := fun f => some f, Response := fun f => some f }

/-- An addon that panics in its Requestheaders hook. -/
def panicAddon : Addon :=
  { Requestheaders := fun _ => none, Request := fun f => some f,
    Responseheaders := fun f => some f, Response := fun f => some f }

/-- A 418 response with body "teapot", the spec's short-circuit scenario. -/
def teapotResponse : Response :=
  { StatusCode := 418, Header := [], Body := some (strBytes "teapot") }

/-- An addon that sets `flow.Response` in its Requestheaders hook. -/
def teapotAddon : Addon :=
  { Requestheaders := fun f => some { f with Response := some teapotResponse },
    Request := fun f => some f, Responseheaders := fun f => some f,
    Response := fun f => some f }

/-- The response `bodySetAddon` installs. -/
def bodySetResponse : Response :=
  { StatusCode := 200, Header := [], Body := some [5] }

/-- An addon that supplies a response body during Responseheaders. -/
def bodySetAddon : Addon :=
  { Requestheaders := fun f => some f, Request := fun f => some f,
    Responseheaders := fun f => some { f with Response := some bodySetResponse },
    Response := fun f => some f }

/-- A small absolute-form GET request. -/
def req0 : Request :=
  { Method := "GET", URL := { Scheme := "http", Host := "origin", Path := "/x" },
    Header := [], Body := none }

/-- Options with a 5-byte streaming threshold. -/
def opts0 : Options := { StreamLargeBodies := 5, SslInsecure := false }

/-- Options with a 2-byte streaming threshold. -/
def opts1 : Options := { StreamLargeBodies := 2, SslInsecure := false }

/-- A fully open connection with a connected server leg; the raw closes
would return the error values 7 (client) and 8 (server). -/
def freshConn : ConnState :=
  { clientClosed := false, serverClosed := false, serverPresent := true,
    rawClientErr := 7, rawServerErr := 8, clientCloseErr := 0, serverCloseErr := 0 }

/-! Claim C1 -/

/-- C1 counterexample: addon 0 panics in Requestheaders.  Contrary to the
claim, the exchange does not continue: addon 1 never receives its
Requestheaders call, no upstream request is issued (the buffered empty
body `[]` would have been forwarded), and the exchange ends in the
recovered state instead of completing. -/
theorem addon_panic_claim_counterexample :
    ServeHTTP [panicAddon, idAddon] opts0 req0 [] (.Ok 200 [] []) =
      { events := [.Requestheaders 0], result := .recovered, finalFlow := none } ∧
    Event.Requestheaders 1 ∉
      (ServeHTTP [panicAddon, idAddon] opts0 req0 [] (.Ok 200 [] [])).events ∧
    Event.UpstreamRequest [] ∉
      (ServeHTTP [panicAddon, idAddon] opts0 req0 [] (.Ok 200 [] [])).events ∧
    (ServeHTTP [idAddon, idAddon] opts0 req0 [] (.Ok 200 [] [])).result =
      ServeResult.normal := by
  refine ⟨?_, ?_, ?_, ?_⟩ <;> decide

/-- C1 (amended): when an addon panics in a Requestheaders hook, the
engine contains the fault — the deferred recover at proxy.go lines
221-225 catches the panic and logs a warning (the `.recovered` result) —
but the exchange is aborted rather than continued: the trace holds
exactly the hook invocations up to and including the panicking addon, no
subsequent addon receives a hook call, no upstream request is issued, and
server_connected never fires for that exchange. -/
theorem addon_panic_contained_but_exchange_aborted
    (addons : List Addon) (opts : Options) (req : Request) (wire : List Nat)
    (up : UpstreamResult) (evs : List Event)
    (hS : ¬req.URL.Scheme = "") (hH : ¬req.URL.Host = "")
    (hrun : runRequestheaders addons 0
      { Request := req, Response := none, Stream := false } = (evs, .panicked)) :
    ServeHTTP addons opts req wire up =
      { events := evs, result := .recovered, finalFlow := none } ∧
    (∀ b, Event.UpstreamRequest b ∉ evs) ∧
    Event.ServerConnected ∉ evs ∧
    (∀ i, Event.Request i ∉ evs) ∧
    (∀ i, Event.Responseheaders i ∉ evs) ∧
    (∀ i, Event.Response i ∉ evs) := by
  have hm := runRequestheaders_mem addons 0
    { Request := req, Response := none, Stream := false }
  rw [hrun] at hm
  refine ⟨?_, ?_, ?_, ?_, ?_, ?_⟩
  · rw [ServeHTTP, if_neg (not_or.mpr ⟨hS, hH⟩), hrun]
  · intro b hb
    obtain ⟨j, hj⟩ := hm _ hb
    exact Event.noConfusion hj
  · intro hb
    obtain ⟨j, hj⟩ := hm _ hb
    exact Event.noConfusion hj
  · intro i hb
    obtain ⟨j, hj⟩ := hm _ hb
    exact Event.noConfusion hj
  · intro i hb
    obtain ⟨j, hj⟩ := hm _ hb
    exact Event.noConfusion hj
  · intro i hb
    obtain ⟨j, hj⟩ := hm _ hb
    exact Event.noConfusion hj

/-- Witness for the amended C1 theorem at a concrete panicking addon. -/
theorem addon_panic_contained_but_exchange_aborted_witness :
    ServeHTTP [panicAddon, idAddon] opts0 req0 [3] .DialFail =
      { events := [.Requestheaders 0], result := .recovered, finalFlow := none } :=
  (addon_panic_contained_but_exchange_aborted [panicAddon, idAddon] opts0 req0 [3]
    .DialFail [.Requestheaders 0] (by decide) (by decide) (by decide)).1

/-! Claim C2 -/

/-- C2: if an addon's Requestheaders hook (first conjunct) or Request hook
(second conjunct) sets `flow.Response`, the engine writes that response to
the client, the hook loop stops at the short-circuiting addon, no later
hook of the exchange fires, no upstream request is issued, and
server_connected never fires.  The upstream behaviour `up` is universally
quantified and absent from the right-hand sides: the outcome does not
depend on the origin server at all. -/
theorem shortcircuit_skips_upstream :
    (∀ (addons : List Addon) (opts : Options) (req : Request) (wire : List Nat)
       (up : UpstreamResult) (evs : List Event) (f1 : Flow),
       ¬req.URL.Scheme = "" → ¬req.URL.Host = "" →
       runRequestheaders addons 0
           { Request := req, Response := none, Stream := false } =
         (evs, .shortCircuit f1) →
       ∃ r, f1.Response = some r ∧
         ServeHTTP addons opts req wire up =
           { events := evs ++ [.ReplyClient r.StatusCode r.Header (replyBody r none)]
             result := .normal
             finalFlow := some f1 } ∧
         Event.ServerConnected ∉ (ServeHTTP addons opts req wire up).events ∧
         (∀ b, Event.UpstreamRequest b ∉ (ServeHTTP addons opts req wire up).events) ∧
         (∀ i, Event.Request i ∉ (ServeHTTP addons opts req wire up).events) ∧
         (∀ i, Event.Responseheaders i ∉ (ServeHTTP addons opts req wire up).events) ∧
         (∀ i, Event.Response i ∉ (ServeHTTP addons opts req wire up).events)) ∧
    (∀ (addons : List Addon) (opts : Options) (f1 : Flow) (wire : List Nat)
       (up : UpstreamResult) (evs : List Event) (f3 : Flow),
       f1.Stream = false → wire.length < opts.StreamLargeBodies →
       runRequest addons 0
           { f1 with Request := { f1.Request with Body := some wire } } =
         (evs, .shortCircuit f3) →
       ∃ r, f3.Response = some r ∧
         serveRequestPhase addons opts f1 wire up =
           { events := evs ++ [.ReplyClient r.StatusCode r.Header (replyBody r none)]
             result := .normal
             finalFlow := some f3 } ∧
         Event.ServerConnected ∉ (serveRequestPhase addons opts f1 wire up).events ∧
         (∀ b, Event.UpstreamRequest b ∉
           (serveRequestPhase addons opts f1 wire up).events) ∧
         (∀ i, Event.Responseheaders i ∉
           (serveRequestPhase addons opts f1 wire up).events) ∧
         (∀ i, Event.Response i ∉
           (serveRequestPhase addons opts f1 wire up).events)) := by
  constructor
  · intro addons opts req wire up evs f1 hS hH hrun
    obtain ⟨r, hr⟩ := runRequestheaders_shortCircuit_response addons 0 _ evs f1 hrun
    have hm := runRequestheaders_mem addons 0
      { Request := req, Response := none, Stream := false }
    rw [hrun] at hm
    have heq : ServeHTTP addons opts req wire up =
        { events := evs ++ [.ReplyClient r.StatusCode r.Header (replyBody r none)]
          result := .normal
          finalFlow := some f1 } := by
      rw [ServeHTTP, if_neg (not_or.mpr ⟨hS, hH⟩), hrun]
      simp [replyOutcome, hr]
    refine ⟨r, hr, heq, ?_, ?_, ?_, ?_, ?_⟩ <;>
      first
      | (intro hb
         rw [heq] at hb
         simp only [List.mem_append, List.mem_singleton] at hb
         rcases hb with hb | hb
         · obtain ⟨j, hj⟩ := hm _ hb
           exact Event.noConfusion hj
         · exact Event.noConfusion hb)
      | (intro b hb
         rw [heq] at hb
         simp only [List.mem_append, List.mem_singleton] at hb
         rcases hb with hb | hb
         · obtain ⟨j, hj⟩ := hm _ hb
           exact Event.noConfusion hj
         · exact Event.noConfusion hb)
  · intro addons opts f1 wire up evs f3 hstream hlen hrun
    obtain ⟨r, hr⟩ := runRequest_shortCircuit_response addons 0 _ evs f3 hrun
    have hm := runRequest_mem addons 0
      { f1 with Request := { f1.Request with Body := some wire } }
    rw [hrun] at hm
    have hbuf : ReaderToBuffer wire opts.StreamLargeBodies = (some wire, none) := by
      simp [ReaderToBuffer, hlen]
    have heq : serveRequestPhase addons opts f1 wire up =
        { events := evs ++ [.ReplyClient r.StatusCode r.Header (replyBody r none)]
          result := .normal
          finalFlow := some f3 } := by
      rw [serveRequestPhase, if_neg (by simp [hstream]), hbuf]
      simp only [hrun]
      simp [replyOutcome, hr]
    refine ⟨r, hr, heq, ?_, ?_, ?_, ?_⟩ <;>
      first
      | (intro hb
         rw [heq] at hb
         simp only [List.mem_append, List.mem_singleton] at hb
         rcases hb with hb | hb
         · obtain ⟨j, hj⟩ := hm _ hb
           exact Event.noConfusion hj
         · exact Event.noConfusion hb)
      | (intro b hb
         rw [heq] at hb
         simp only [List.mem_append, List.mem_singleton] at hb
         rcases hb with hb | hb
         · obtain ⟨j, hj⟩ := hm _ hb
           exact Event.noConfusion hj
         · exact Event.noConfusion hb)

/-- Witness for C2 at the spec's concrete scenario: the teapot addon
short-circuits in Requestheaders; the client receives 418 "teapot" and
nothing else happens. -/
theorem shortcircuit_skips_upstream_witness :
    ServeHTTP [teapotAddon] opts0 req0 [] (.Ok 200 [] [7]) =
      { events := [.Requestheaders 0,
                   .ReplyClient 418 [] (strBytes "teapot")]
        result := .normal
        finalFlow := some { Request := req0, Response := some teapotResponse,
                            Stream := false } } ∧
    Event.ServerConnected ∉
      (ServeHTTP [teapotAddon] opts0 req0 [] (.Ok 200 [] [7])).events := by
  obtain ⟨r, hr, heq, hsc, -⟩ := shortcircuit_skips_upstream.1 [teapotAddon] opts0
    req0 [] (.Ok 200 [] [7]) [.Requestheaders 0]
    { Request := req0, Response := some teapotResponse, Stream := false }
    (by decide) (by decide) (by decide)
  have hr2 : r = teapotResponse := by
    simpa using hr.symm
  subst hr2
  exact ⟨by rw [heq]; decide, hsc⟩

/-! Claim C3 -/

/-- C3 counterexample: on a fully open connection whose server leg is
present, closing the client leg first (`proxyConn.Close`) fires
ClientDisconnected first and ServerDisconnected after it — the claimed
strict order `server_disconnected < client_disconnected` is violated when
the client leg is closed first. -/
theorem disconnect_order_claim_counterexample :
    (closeConn 4 .client freshConn).2.1 =
      [Event.ClientDisconnected, Event.ServerDisconnected] ∧
    (closeConn 4 .client freshConn).2.1.indexOf Event.ClientDisconnected <
      (closeConn 4 .client freshConn).2.1.indexOf Event.ServerDisconnected := by
  refine ⟨?_, ?_⟩ <;> decide

/-- proxy.go lines 114-121: the `http.Server.ConnContext` callback built
in `NewProxy` fires the ClientConnected loop the moment the client
connection is accepted, before the handler serves any exchange on that
connection; no other place emits it.  The trace of one connection
serving one exchange is therefore ClientConnected followed by the
`ServeHTTP` events. -/
def serveConnection (addons : List Addon) (opts : Options) (req : Request)
    (wireBody : List Nat) (upstream : UpstreamResult) : List Event :=
  Event.ClientConnected :: (ServeHTTP addons opts req wireBody upstream).events

/-- C3 (amended): per connection, client_connected fires before
server_connected — it opens the trace at accept time, so any
server_connected occurrence comes strictly later; on teardown of a
ConnContext with a connected server leg, both disconnect hooks fire
exactly once, but their relative order depends on which leg is closed
first: closing the server leg first yields server_disconnected then
client_disconnected (the claimed order), while closing the client leg
first yields client_disconnected then server_disconnected. -/
theorem disconnect_order_depends_on_closed_leg
    (addons : List Addon) (opts : Options) (req : Request) (wire : List Nat)
    (up : UpstreamResult) (s : ConnState)
    (h1 : s.clientClosed = false) (h2 : s.serverClosed = false)
    (h3 : s.serverPresent = true) :
    (serveConnection addons opts req wire up).indexOf Event.ClientConnected = 0 ∧
    (Event.ServerConnected ∈ serveConnection addons opts req wire up →
      (serveConnection addons opts req wire up).indexOf Event.ClientConnected <
        (serveConnection addons opts req wire up).indexOf Event.ServerConnected) ∧
    (closeConn 4 .server s).2.1 =
      [Event.ServerDisconnected, Event.ClientDisconnected] ∧
    (closeConn 4 .client s).2.1 =
      [Event.ClientDisconnected, Event.ServerDisconnected] ∧
    (closeConn 4 .server s).2.1.count Event.ServerDisconnected = 1 ∧
    (closeConn 4 .server s).2.1.count Event.ClientDisconnected = 1 ∧
    (closeConn 4 .client s).2.1.count Event.ServerDisconnected = 1 ∧
    (closeConn 4 .client s).2.1.count Event.ClientDisconnected = 1 := by
  refine ⟨?_, ?_, ?_⟩
  · exact List.indexOf_cons_self _ _
  · intro hmem
    rw [serveConnection, List.indexOf_cons_self,
      List.indexOf_cons_ne _ (show Event.ClientConnected ≠ Event.ServerConnected
        from fun h => Event.noConfusion h)]
    exact Nat.succ_pos _
  · rw [closeConn_server_eval s h1 h2, closeConn_client_eval s h1 h2 h3]
    refine ⟨rfl, rfl, ?_, ?_, ?_, ?_⟩ <;> simp [List.count_cons]

/-- Witness for the amended C3 theorem at a concrete connection: with one
identity addon and a reachable upstream, server_connected does occur and
sits strictly after the accept-time client_connected; the teardown traces
are as claimed at a concrete open connection. -/
theorem disconnect_order_depends_on_closed_leg_witness :
    (serveConnection [idAddon] opts0 req0 [] (.Ok 200 [] [])).indexOf
        Event.ClientConnected <
      (serveConnection [idAddon] opts0 req0 [] (.Ok 200 [] [])).indexOf
        Event.ServerConnected ∧
    (closeConn 4 .server freshConn).2.1 =
      [Event.ServerDisconnected, Event.ClientDisconnected] ∧
    (closeConn 4 .client freshConn).2.1 =
      [Event.ClientDisconnected, Event.ServerDisconnected] := by
  obtain ⟨-, hconn, hserver, hclient, -⟩ :=
    disconnect_order_depends_on_closed_leg [idAddon] opts0 req0 []
      (.Ok 200 [] []) freshConn (by decide) (by decide) (by decide)
  exact ⟨hconn (by decide), hserver, hclient⟩

/-! Claim C5 -/

/-- C5: closing the client leg also closes the server leg when present
(and only the client leg otherwise), closing the server leg also closes
the client leg; each disconnect hook fires exactly once over the
connection's lifetime, and a repeat Close of either leg fires no hooks
and returns the cached first close error. -/
theorem pairwise_close_fires_once_and_caches (s : ConnState)
    (h1 : s.clientClosed = false) (h2 : s.serverClosed = false) :
    (s.serverPresent = true →
      (closeConn 4 .client s).1.clientClosed = true ∧
      (closeConn 4 .client s).1.serverClosed = true ∧
      (closeConn 4 .client s).2.1.count Event.ClientDisconnected = 1 ∧
      (closeConn 4 .client s).2.1.count Event.ServerDisconnected = 1 ∧
      (closeConn 4 .client s).2.2 = s.rawClientErr ∧
      closeConn 4 .client (closeConn 4 .client s).1 =
        ((closeConn 4 .client s).1, [], s.rawClientErr) ∧
      closeConn 4 .server (closeConn 4 .client s).1 =
        ((closeConn 4 .client s).1, [], s.rawServerErr)) ∧
    (s.serverPresent = false →
      closeConn 4 .client s =
        ({ s with clientClosed := true, clientCloseErr := s.rawClientErr },
         [Event.ClientDisconnected], s.rawClientErr)) ∧
    ((closeConn 4 .server s).1.clientClosed = true ∧
     (closeConn 4 .server s).1.serverClosed = true ∧
     (closeConn 4 .server s).2.1.count Event.ClientDisconnected = 1 ∧
     (closeConn 4 .server s).2.1.count Event.ServerDisconnected = 1 ∧
     (closeConn 4 .server s).2.2 = s.rawServerErr ∧
     closeConn 4 .server (closeConn 4 .server s).1 =
       ((closeConn 4 .server s).1, [], s.rawServerErr) ∧
     closeConn 4 .client (closeConn 4 .server s).1 =
       ((closeConn 4 .server s).1, [], s.rawClientErr)) := by
  refine ⟨?_, ?_, ?_⟩
  · intro h3
    rw [closeConn_client_eval s h1 h2 h3]
    refine ⟨rfl, rfl, by simp [List.count_cons], by simp [List.count_cons], rfl,
      ?_, ?_⟩
    · exact closeConn_client_closed 3 _ rfl
    · exact closeConn_server_closed 3 _ rfl
  · intro h3
    exact closeConn_client_eval_noserver s h1 h3
  · rw [closeConn_server_eval s h1 h2]
    refine ⟨rfl, rfl, by simp [List.count_cons], by simp [List.count_cons], rfl,
      ?_, ?_⟩
    · exact closeConn_server_closed 3 _ rfl
    · exact closeConn_client_closed 3 _ rfl

/-- Witness for C5 at a concrete open connection: after a client-first
close both legs are closed, each disconnect hook fired once, and the
repeat close returns the cached raw client error 7 without events. -/
theorem pairwise_close_fires_once_and_caches_witness :
    (closeConn 4 .client freshConn).1.serverClosed = true ∧
    (closeConn 4 .client freshConn).2.1.count Event.ClientDisconnected = 1 ∧
    closeConn 4 .client (closeConn 4 .client freshConn).1 =
      ((closeConn 4 .client freshConn).1, [], 7) := by
  obtain ⟨hc, -, hcd, -, -, hrepeat, -⟩ :=
    (pairwise_close_fires_once_and_caches freshConn (by decide) (by decide)).1
      (by decide)
  exact ⟨hc, hcd, hrepeat⟩

/-! Claim C4 -/

/-- The TLS-record test of middle.go line 154 on an explicit three-byte
prefix. -/
lemma isTlsRecordMagic_cons (b0 b1 b2 : Nat) (rest : List Nat) :
    isTlsRecordMagic (b0 :: b1 :: b2 :: rest) =
      (b0 == 22 && b1 == 3 && decide (b2 ≤ 3)) := by
  simp [isTlsRecordMagic, List.getElem!_cons_zero, List.getElem!_cons_succ]

/-- A list of length at least three starts with three explicit elements. -/
lemma exists_three_of_len (l : List Nat) (h : 3 ≤ l.length) :
    ∃ b0 b1 b2 rest, l = b0 :: b1 :: b2 :: rest := by
  rcases l with _ | ⟨b0, _ | ⟨b1, _ | ⟨b2, rest⟩⟩⟩
  · simp at h
  · simp at h
  · simp at h
  · exact ⟨b0, b1, b2, rest, rfl⟩

/-- C4: the interceptor peeks exactly three bytes without consuming them
(the handed-off connection still carries all of `p.bytes`); it takes the
TLS path — set `client.tls`, call `InitHttpsServer` with the insecurity
option, hand the pipe's server end to the mock listener, in that order —
if and only if the tunnel starts with `0x16 0x03 VV`, `VV ≤ 0x03`; any
other three-byte prefix goes to the WebSocket path, and a peek error
(fewer than three bytes available) closes the pipe and drops the
tunnel. -/
theorem intercept_classifies_tls (p : PipeSource) (insecure : Bool) :
    (3 ≤ p.bytes.length → pipeConnPeek p 3 = .ok (p.bytes.take 3)) ∧
    (p.bytes.length < 3 → intercept p insecure = [.closePipe]) ∧
    (intercept p insecure =
        [.setClientTls, .initHttpsServer insecure, .handToListener p.bytes] ↔
      ∃ v rest, p.bytes = 0x16 :: 0x03 :: v :: rest ∧ v ≤ 0x03) ∧
    (3 ≤ p.bytes.length →
      (¬∃ v rest, p.bytes = 0x16 :: 0x03 :: v :: rest ∧ v ≤ 0x03) →
      intercept p insecure = [.websocket p.bytes]) := by
  refine ⟨?_, ?_, ?_, ?_⟩
  · intro h
    simp [pipeConnPeek, h]
  · intro h
    simp [intercept, pipeConnPeek, Nat.not_le.mpr h]
  · constructor
    · intro heq
      by_cases hlen : 3 ≤ p.bytes.length
      · obtain ⟨b0, b1, b2, rest, hb⟩ := exists_three_of_len p.bytes hlen
        rw [intercept, pipeConnPeek, if_pos hlen] at heq
        rw [hb] at heq
        simp only [List.take_succ_cons, List.take_zero, isTlsRecordMagic_cons] at heq
        by_cases hm : (b0 == 22 && b1 == 3 && decide (b2 ≤ 3)) = true
        · simp only [Bool.and_eq_true, beq_iff_eq, decide_eq_true_eq] at hm
          obtain ⟨⟨rfl, rfl⟩, hv⟩ := hm
          exact ⟨b2, rest, hb, hv⟩
        · rw [if_neg hm] at heq
          simp at heq
      · rw [intercept, pipeConnPeek, if_neg hlen] at heq
        simp at heq
    · rintro ⟨v, rest, hb, hv⟩
      have hlen : 3 ≤ p.bytes.length := by rw [hb]; simp
      rw [intercept, pipeConnPeek, if_pos hlen, hb]
      simp [isTlsRecordMagic_cons, hv]
  · intro hlen hnot
    obtain ⟨b0, b1, b2, rest, hb⟩ := exists_three_of_len p.bytes hlen
    have hm : (b0 == 22 && b1 == 3 && decide (b2 ≤ 3)) ≠ true := by
      intro hm
      simp only [Bool.and_eq_true, beq_iff_eq, decide_eq_true_eq] at hm
      obtain ⟨⟨rfl, rfl⟩, hv⟩ := hm
      exact hnot ⟨b2, rest, hb, hv⟩
    rw [intercept, pipeConnPeek, if_pos hlen, hb]
    simp only [List.take_succ_cons, List.take_zero, isTlsRecordMagic_cons]
    rw [if_neg hm, ← hb]

/-- Witness for C4 at concrete tunnels: a TLS 1.0 ClientHello prefix goes
to the TLS path, a `0x16 0x03 0x04` prefix goes to the WebSocket path,
and a two-byte tunnel (peek error) closes the pipe. -/
theorem intercept_classifies_tls_witness :
    intercept ⟨[22, 3, 1, 99]⟩ true =
      [.setClientTls, .initHttpsServer true, .handToListener [22, 3, 1, 99]] ∧
    intercept ⟨[22, 3, 4]⟩ false = [.websocket [22, 3, 4]] ∧
    intercept ⟨[22, 3]⟩ false = [.closePipe] := by
  refine ⟨?_, ?_, ?_⟩
  · exact (intercept_classifies_tls ⟨[22, 3, 1, 99]⟩ true).2.2.1.mpr
      ⟨1, [99], rfl, by decide⟩
  · refine (intercept_classifies_tls ⟨[22, 3, 4]⟩ false).2.2.2 (by decide) ?_
    rintro ⟨v, rest, h, hv⟩
    injection h with h1 h2
    injection h2 with h3 h4
    injection h4 with h5 h6
    omega
  · exact (intercept_classifies_tls ⟨[22, 3]⟩ false).2.1 (by decide)

/-! Claim C6 -/

/-- A plain GET flow before the body-reading phase. -/
def f1c : Flow := { Request := req0, Response := none, Stream := false }

/-- C6: a request body (first conjunct) or response body (second conjunct)
that reaches the configured limit without EOF promotes the flow to stream
mode: `flow.Stream` is set, the buffered-body hook (Request resp.
Response) is skipped for the exchange, the full body travels on via the
residual reader (to the upstream for requests, to the client for
responses), and no error is surfaced to the client. -/
theorem stream_promotion :
    (∀ (addons : List Addon) (opts : Options) (f1 : Flow) (wire : List Nat)
       (up : UpstreamResult),
       f1.Stream = false → opts.StreamLargeBodies ≤ wire.length →
       serveRequestPhase addons opts f1 wire up =
         serveUpstreamPhase addons opts { f1 with Stream := true } wire up ∧
       (∀ i, Event.Request i ∉ (serveRequestPhase addons opts f1 wire up).events) ∧
       (∀ st hd rb, up = .Ok st hd rb →
          Event.UpstreamRequest wire ∈
            (serveRequestPhase addons opts f1 wire up).events)) ∧
    (∀ (addons : List Addon) (opts : Options) (f1 : Flow) (rbody : List Nat)
       (evs : List Event) (f2 : Flow) (r : Response),
       runResponseheaders addons 0 f1 = (evs, .done f2) →
       f2.Stream = false → f2.Response = some r →
       opts.StreamLargeBodies ≤ rbody.length →
       serveResponsePhase addons opts f1 rbody =
         { events := evs ++ [.ReplyClient r.StatusCode r.Header rbody]
           result := .normal
           finalFlow := some { f2 with Stream := true } } ∧
       (∀ i, Event.Response i ∉ (serveResponsePhase addons opts f1 rbody).events)) := by
  constructor
  · intro addons opts f1 wire up h1 h2
    have hbuf : ReaderToBuffer wire opts.StreamLargeBodies = (none, some wire) := by
      simp [ReaderToBuffer, Nat.not_lt.mpr h2]
    have heq : serveRequestPhase addons opts f1 wire up =
        serveUpstreamPhase addons opts { f1 with Stream := true } wire up := by
      rw [serveRequestPhase, if_neg (by simp [h1]), hbuf]
      rfl
    refine ⟨heq, ?_, ?_⟩
    · intro i
      rw [heq]
      exact serveUpstreamPhase_no_request addons opts _ wire up i
    · intro st hd rb hup
      rw [heq, hup]
      simp [serveUpstreamPhase]
  · intro addons opts f1 rbody evs f2 r hrun hst hr hlen
    have hbuf : ReaderToBuffer rbody opts.StreamLargeBodies = (none, some rbody) := by
      simp [ReaderToBuffer, Nat.not_lt.mpr hlen]
    have hm := runResponseheaders_mem addons 0 f1
    rw [hrun] at hm
    have heq : serveResponsePhase addons opts f1 rbody =
        { events := evs ++ [.ReplyClient r.StatusCode r.Header rbody]
          result := .normal
          finalFlow := some { f2 with Stream := true } } := by
      rw [serveResponsePhase, hrun]
      simp only [hbuf]
      rw [if_neg (show ¬f2.Stream = true by simp [hst])]
      simp [replyOutcome, hr, replyBody]
    refine ⟨heq, ?_⟩
    intro i hbm
    rw [heq] at hbm
    simp only [List.mem_append, List.mem_singleton] at hbm
    rcases hbm with hbm | hbm
    · obtain ⟨j, hj⟩ := hm _ hbm
      exact Event.noConfusion hj
    · exact Event.noConfusion hbm

/-- Witness for C6: with a 2-byte limit a 3-byte request body streams; the
Request hook never fires and the upstream receives all three bytes. -/
theorem stream_promotion_witness :
    serveRequestPhase [idAddon] opts1 f1c [1, 2, 3] (.Ok 200 [] [9]) =
      serveUpstreamPhase [idAddon] opts1 { f1c with Stream := true } [1, 2, 3]
        (.Ok 200 [] [9]) ∧
    Event.UpstreamRequest [1, 2, 3] ∈
      (serveRequestPhase [idAddon] opts1 f1c [1, 2, 3] (.Ok 200 [] [9])).events := by
  obtain ⟨heq, hnoreq, hup⟩ := stream_promotion.1 [idAddon] opts1 f1c [1, 2, 3]
    (.Ok 200 [] [9]) (by decide) (by decide)
  exact ⟨heq, hup 200 [] [9] rfl⟩

/-! Claim C7 -/

/-- Every event `reply` contributes is a ReplyClient event; everything
before it came from the loop events `evs`. -/
lemma replyOutcome_mem (evs : List Event) (f : Flow) (body : Option (List Nat)) :
    ∀ e ∈ (replyOutcome evs f body).events,
      e ∈ evs ∨ ∃ st hd b, e = Event.ReplyClient st hd b := by
  intro e he
  unfold replyOutcome at he
  cases hr : f.Response with
  | none =>
    rw [hr] at he
    exact Or.inl he
  | some r =>
    rw [hr] at he
    simp only [List.mem_append, List.mem_singleton] at he
    rcases he with he | rfl
    · exact Or.inl he
    · exact Or.inr ⟨_, _, _, rfl⟩

/-- With a failing upstream dial, no branch of the request phase ever
fires server_connected. -/
lemma serveRequestPhase_dialfail_no_serverconnected (addons : List Addon)
    (opts : Options) (f1 : Flow) (wire : List Nat) :
    Event.ServerConnected ∉
      (serveRequestPhase addons opts f1 wire .DialFail).events := by
  intro he
  rw [serveRequestPhase] at he
  by_cases h1 : f1.Stream = true
  · rw [if_pos h1] at he
    simp [serveUpstreamPhase] at he
  · rw [if_neg h1] at he
    cases hbuf : ReaderToBuffer wire opts.StreamLargeBodies with
    | mk buf residual =>
      rw [hbuf] at he
      cases buf with
      | none => simp [serveUpstreamPhase] at he
      | some reqBuf =>
        have hm := runRequest_mem addons 0
          { f1 with Request := { f1.Request with Body := some reqBuf } }
        cases hrun : runRequest addons 0
            { f1 with Request := { f1.Request with Body := some reqBuf } } with
        | mk evs out =>
          simp only [hrun] at he hm
          cases out with
          | panicked =>
            obtain ⟨j, hj⟩ := hm _ he
            exact Event.noConfusion hj
          | shortCircuit f3 =>
            rcases replyOutcome_mem evs f3 none _ he with he | ⟨st, hd, b, hj⟩
            · obtain ⟨j, hj⟩ := hm _ he
              exact Event.noConfusion hj
            · exact Event.noConfusion hj
          | done f3 =>
            simp only [List.mem_append] at he
            rcases he with he | he
            · obtain ⟨j, hj⟩ := hm _ he
              exact Event.noConfusion hj
            · simp [serveUpstreamPhase] at he

/-- C7: a failing upstream dial yields a bare 502 with empty body and
unchanged flow; server_connected never fires anywhere in such an
exchange; and client_disconnected still fires exactly once when the
client connection closes, with or without a server leg. -/
theorem upstream_dial_failure_502 :
    (∀ (addons : List Addon) (opts : Options) (f : Flow) (reqBody : List Nat),
       serveUpstreamPhase addons opts f reqBody .DialFail =
         { events := [.ReplyClient 502 [] []], result := .normal,
           finalFlow := some f }) ∧
    (∀ (addons : List Addon) (opts : Options) (req : Request) (wire : List Nat),
       Event.ServerConnected ∉ (ServeHTTP addons opts req wire .DialFail).events) ∧
    (∀ s : ConnState, s.clientClosed = false →
       (s.serverPresent = true → s.serverClosed = false →
         (closeConn 4 .client s).2.1.count Event.ClientDisconnected = 1) ∧
       (s.serverPresent = false →
         (closeConn 4 .client s).2.1.count Event.ClientDisconnected = 1)) := by
  refine ⟨fun addons opts f reqBody => rfl, ?_, ?_⟩
  · intro addons opts req wire he
    rw [ServeHTTP] at he
    by_cases h4 : req.URL.Scheme = "" ∨ req.URL.Host = ""
    · rw [if_pos h4] at he
      simp at he
    · rw [if_neg h4] at he
      have hm := runRequestheaders_mem addons 0
        { Request := req, Response := none, Stream := false }
      cases hrun : runRequestheaders addons 0
          { Request := req, Response := none, Stream := false } with
      | mk evs out =>
        rw [hrun] at he hm
        cases out with
        | panicked =>
          obtain ⟨j, hj⟩ := hm _ he
          exact Event.noConfusion hj
        | shortCircuit f1 =>
          rcases replyOutcome_mem evs f1 none _ he with he | ⟨st, hd, b, hj⟩
          · obtain ⟨j, hj⟩ := hm _ he
            exact Event.noConfusion hj
          · exact Event.noConfusion hj
        | done f1 =>
          simp only [List.mem_append] at he
          rcases he with he | he
          · obtain ⟨j, hj⟩ := hm _ he
            exact Event.noConfusion hj
          · exact serveRequestPhase_dialfail_no_serverconnected addons opts f1 wire he
  · intro s h1
    constructor
    · intro h3 h2
      rw [closeConn_client_eval s h1 h2 h3]
      simp [List.count_cons]
    · intro h3
      rw [closeConn_client_eval_noserver s h1 h3]
      simp [List.count_cons]

/-- Witness for C7 at a concrete dial failure and a concrete connection
close. -/
theorem upstream_dial_failure_502_witness :
    serveUpstreamPhase [idAddon] opts0 f1c [] .DialFail =
      { events := [.ReplyClient 502 [] []], result := .normal,
        finalFlow := some f1c } ∧
    Event.ServerConnected ∉
      (ServeHTTP [idAddon] opts0 req0 [] .DialFail).events ∧
    (closeConn 4 .client freshConn).2.1.count Event.ClientDisconnected = 1 := by
  refine ⟨upstream_dial_failure_502.1 [idAddon] opts0 f1c [],
    upstream_dial_failure_502.2.1 [idAddon] opts0 req0 [], ?_⟩
  exact (upstream_dial_failure_502.2.2 freshConn (by decide)).1 (by decide) (by decide)

/-! Claim C8 -/

/-- C8: on a successful dial and hijack, the CONNECT handler writes the
literal `HTTP/1.1 200 Connection Established\r\n\r\n` to the client before
any other bytes, then bidirectionally copies between the hijacked socket
and the pipe end, then closes both sides (hijacked socket first, pipe end
last, per the deferred closes); the trace is exactly `[.write502]` iff the
interceptor dial failed. -/
theorem handleConnect_writes_200_then_transfers
    (d : Except String PipeClientEnd) (e : PipeClientEnd) (hj w : Bool)
    (p c : List Nat) :
    handleConnect (.ok e) true true p c =
      [.writeClient (strBytes connectionEstablished),
       .transferred p c, .closeClientSock, .closePipeEnd] ∧
    ((∃ err, d = .error err) ↔ handleConnect d hj w p c = [.write502]) := by
  refine ⟨rfl, ?_⟩
  constructor
  · rintro ⟨err, rfl⟩
    rfl
  · intro h
    cases d with
    | error err => exact ⟨err, rfl⟩
    | ok e2 =>
      exfalso
      cases hj <;> cases w <;> simp [handleConnect, transfer] at h

/-- Witness for C8 at a concrete tunnel. -/
theorem handleConnect_writes_200_then_transfers_witness :
    handleConnect (.ok ⟨"origin:443"⟩) true true [1] [2] =
      [.writeClient (strBytes connectionEstablished),
       .transferred [1] [2], .closeClientSock, .closePipeEnd] ∧
    handleConnect (.error "dial failed") true true [1] [2] = [.write502] := by
  refine ⟨(handleConnect_writes_200_then_transfers (.ok ⟨"origin:443"⟩)
    ⟨"origin:443"⟩ true true [1] [2]).1, ?_⟩
  exact (handleConnect_writes_200_then_transfers (.error "dial failed")
    ⟨"origin:443"⟩ true true [1] [2]).2.mp ⟨"dial failed", rfl⟩

/-! Claim C9 -/

/-- C9: when an addon supplies `flow.Response.Body` during its
Responseheaders hook, the engine immediately replies with exactly that
body, the Responseheaders loop stops there (the events fired are
`Responseheaders 0, 1, …` in registration order), the upstream response
body is never read or buffered (`rbody` is universally quantified and
absent from the outcome), and the Response hook never fires. -/
theorem responseheaders_body_shortcircuit
    (addons : List Addon) (opts : Options) (f1 : Flow) (rbody : List Nat)
    (evs : List Event) (f2 : Flow)
    (hrun : runResponseheaders addons 0 f1 = (evs, .shortCircuit f2)) :
    ∃ r b, f2.Response = some r ∧ r.Body = some b ∧
      serveResponsePhase addons opts f1 rbody =
        { events := evs ++ [.ReplyClient r.StatusCode r.Header b]
          result := .normal
          finalFlow := some f2 } ∧
      (∀ i, Event.Response i ∉ (serveResponsePhase addons opts f1 rbody).events) ∧
      evs = (List.range' 0 evs.length).map Event.Responseheaders := by
  obtain ⟨r, b, hr, hb⟩ :=
    runResponseheaders_shortCircuit_body addons 0 f1 evs f2 hrun
  have hm := runResponseheaders_mem addons 0 f1
  have hrange := runResponseheaders_events_range addons 0 f1
  rw [hrun] at hm hrange
  have heq : serveResponsePhase addons opts f1 rbody =
      { events := evs ++ [.ReplyClient r.StatusCode r.Header b]
        result := .normal
        finalFlow := some f2 } := by
    rw [serveResponsePhase, hrun]
    simp [replyOutcome, hr, replyBody_none_of_body r b hb]
  refine ⟨r, b, hr, hb, heq, ?_, hrange⟩
  intro i hbm
  rw [heq] at hbm
  simp only [List.mem_append, List.mem_singleton] at hbm
  rcases hbm with hbm | hbm
  · obtain ⟨j, hj⟩ := hm _ hbm
    exact Event.noConfusion hj
  · exact Event.noConfusion hbm

/-- Witness for C9: `bodySetAddon` supplies body `[5]` in Responseheaders;
the client receives it and the upstream body `[1, 2, 3]` is never read. -/
theorem responseheaders_body_shortcircuit_witness :
    serveResponsePhase [bodySetAddon] opts0
      { Request := req0,
        Response := some { StatusCode := 200, Header := [], Body := none },
        Stream := false } [1, 2, 3] =
      { events := [.Responseheaders 0, .ReplyClient 200 [] [5]]
        result := .normal
        finalFlow := some { Request := req0, Response := some bodySetResponse,
                            Stream := false } } := by
  obtain ⟨r, b, hr, hb, heq, -, -⟩ := responseheaders_body_shortcircuit
    [bodySetAddon] opts0
    { Request := req0,
      Response := some { StatusCode := 200, Header := [], Body := none },
      Stream := false } [1, 2, 3] [.Responseheaders 0]
    { Request := req0, Response := some bodySetResponse, Stream := false }
    (by decide)
  have hr2 : r = bodySetResponse := by
    simpa using hr.symm
  subst hr2
  have hb2 : b = [5] := by
    have hbb : bodySetResponse.Body = some [5] := rfl
    rw [hbb] at hb
    exact (Option.some.inj hb).symm
  subst hb2
  exact heq

/-! Claim C10 -/

/-- C10: `Middle.Dial` always returns the pipe's client end and a nil
error — it does not wait for classification or any upstream connection
(`MiddleDial` does not even take the tunnel bytes as input: `intercept`
runs on its own task) — hence the dial-failure 502 branch of the CONNECT
handler is unreachable when the interceptor is `Middle`. -/
theorem middle_dial_never_fails (req : DialReq) (hj w : Bool) (p c : List Nat) :
    MiddleDial req = .ok { forHost := req.host } ∧
    (∀ err, ¬MiddleDial req = .error err) ∧
    ¬handleConnect (MiddleDial req) hj w p c = [.write502] := by
  refine ⟨rfl, ?_, ?_⟩
  · intro err h
    simp [MiddleDial] at h
  · intro h
    cases hj <;> cases w <;> simp [MiddleDial, handleConnect, transfer] at h

/-- Witness for C10 at a concrete CONNECT request. -/
theorem middle_dial_never_fails_witness :
    MiddleDial ⟨"example.com:443", "10.0.0.1:50000"⟩ =
      .ok ⟨"example.com:443"⟩ ∧
    ¬handleConnect (MiddleDial ⟨"example.com:443", "10.0.0.1:50000"⟩)
      false false [] [] = [.write502] :=
  ⟨(middle_dial_never_fails ⟨"example.com:443", "10.0.0.1:50000"⟩ true true
      [] []).1,
   (middle_dial_never_fails ⟨"example.com:443", "10.0.0.1:50000"⟩ false false
      [] []).2.2⟩

end Proxy
